import Mathlib

/-!
Shallow embedding of the `gas-lib` utility module (spreadsheet-scripting
helpers): the digest-to-hex encoder `createMD5HashKey`, the in-place
reordering helpers `ArrayActions.swapUp` / `swapDown`, the padding helpers
`toZeroPadding` / `toWordPadding`, the fluent `Pipe` wrapper and
`SpreadsheetLib.openSheet`.

Modelling conventions:
* JS strings are Lean `String`s; the JS operations used by the code
  (`slice` with a possibly negative argument, `repeat`, template-literal
  concatenation, `Number.prototype.toString(16)`) are defined below from
  their ECMAScript semantics.
* JS arrays are `List (Option α)`: an element `some a` is an ordinary
  value, `none` is the JS `undefined` (which out-of-range indexing
  produces and `splice` can insert).
* JS numbers appearing here are integers, modelled as `Int`.
-/

/-- Hex digit characters `0-9a-f`, as produced by `Number.toString(16)`. -/
def hexDigitChar (n : Nat) : Char :=
  if n < 10 then Char.ofNat (48 + n) else Char.ofNat (87 + n)

/-- Decimal digit characters `0-9`, as produced by `Number.toString()`. -/
def decDigitChar (n : Nat) : Char := Char.ofNat (48 + n)

/-- Fuel-driven most-significant-first base-`b` digit expansion. -/
def natDigitsAux (b : Nat) (digitChar : Nat → Char) : Nat → Nat → List Char
  | 0, _ => []
  | fuel + 1, n =>
    if n < b then [digitChar n]
    else natDigitsAux b digitChar fuel (n / b) ++ [digitChar (n % b)]

/-- Lowercase hexadecimal rendering of a natural number, no padding:
the JS `n.toString(16)` for a nonnegative integer `n`. -/
def natToHex (n : Nat) : String :=
  String.mk (natDigitsAux 16 hexDigitChar (n + 1) n)

/-- Decimal rendering of a natural number: the JS `n.toString()` for a
nonnegative integer `n`. -/
def natToDec (n : Nat) : String :=
  String.mk (natDigitsAux 10 decDigitChar (n + 1) n)

/-- JS `Number.prototype.toString(16)` on an integer value. -/
def jsIntToHex (i : Int) : String :=
  if i < 0 then "-" ++ natToHex (-i).toNat else natToHex i.toNat

/-- JS `Number.prototype.toString()` on an integer value. -/
def jsIntToDec (i : Int) : String :=
  if i < 0 then "-" ++ natToDec (-i).toNat else natToDec i.toNat

/-- JS `String.prototype.repeat`: `count` concatenated copies of `s`. -/
def jsRepeat (s : String) (count : Nat) : String :=
  String.mk (List.flatten (List.replicate count s.data))

/-- JS `String.prototype.slice(start)` (single argument, integer `start`):
a negative `start` counts from the end, clamped at 0; a nonnegative
`start` past the end yields the empty string. -/
def jsSlice (s : String) (start : Int) : String :=
  if start < 0 then String.mk (s.data.drop (s.length + start).toNat)
  else String.mk (s.data.drop start.toNat)

/-- A JS `string | number` argument value. -/
inductive JSVal where
  | str (s : String)
  | num (n : Int)
deriving DecidableEq

/-- The rendering of a `string | number` value used by the padding helpers:
a string is itself, a number `v` becomes `v.toString()`. -/
def JSVal.render : JSVal → String
  | .str s => s
  | .num n => jsIntToDec n

/-- Source function `toZeroPadding`: take the absolute value of `digit`,
prepend that many `'0'` characters to the rendering of `v`, and take
`slice(-abs)` of the result. -/
def toZeroPadding (v : JSVal) (digit : Int) : String :=
  let a : Int := if digit < 0 then -digit else digit
  jsSlice (jsRepeat "0" a.toNat ++ v.render) (-a)

/-- Source function `toWordPadding`: same as `toZeroPadding` but the
prefix is `word.repeat(abs digit)`. -/
def toWordPadding (v : JSVal) (digit : Int) (word : String) : String :=
  let a : Int := if digit < 0 then -digit else digit
  jsSlice (jsRepeat word a.toNat ++ v.render) (-a)

/-- The last `w` characters of `s` (all of `s` when it is shorter). -/
def lastChars (w : Nat) (s : String) : String :=
  String.mk (s.data.drop (s.data.length - w))

/-- Left-pad `s` with copies of `c` up to a total width `w` (no-op when
`s` is already at least that wide). -/
def padStartWith (c : Char) (w : Nat) (s : String) : String :=
  String.mk (List.replicate (w - s.data.length) c ++ s.data)

/-- Spec-side rendering of `toZeroPadding` (§4.3), for comparison with the
source definition: pad the rendering of `v` with leading zeros to reach
`abs digit` total characters, then truncate to the last `abs digit`
characters. -/
def specZeroPad (v : JSVal) (digit : Int) : String :=
  lastChars digit.natAbs (padStartWith '0' digit.natAbs v.render)

/-- JS array element: `some a` is a stored value, `none` is `undefined`
(both the value produced by out-of-range indexing and a value `splice`
can insert). -/
abbrev JSArr (α : Type) := List (Option α)

/-- JS indexing `arr[i]`: `undefined` when `i` is negative or past the
end, otherwise the stored element. -/
def jsGet (arr : JSArr α) (i : Int) : Option α :=
  if i < 0 then none else (arr[i.toNat]?).getD none

/-- The clamped actual start index of `Array.prototype.splice`: a negative
`start` counts from the end (clamped at 0, which `Int.toNat` performs), a
nonnegative one is clamped to the length. -/
def spliceStart (arr : JSArr α) (start : Int) : Nat :=
  if start < 0 then ((arr.length : Int) + start).toNat
  else min start.toNat arr.length

/-- JS `Array.prototype.splice(start, deleteCount, ...items)` restricted
to integer arguments: clamp `start` into `[0, length]`, clamp
`deleteCount` into `[0, length - start]`, remove that many elements at
the start position and insert `items` there. -/
def splice (arr : JSArr α) (start deleteCount : Int) (items : JSArr α) :
    JSArr α :=
  arr.take (spliceStart arr start) ++ (items ++
    arr.drop (spliceStart arr start +
      min deleteCount.toNat (arr.length - spliceStart arr start)))

/-- Source function `ArrayActions.swapUp`: no-op for `index <= 0`,
otherwise `array.splice(index - 1, 2, array[index], array[index - 1])`. -/
def swapUp (array : JSArr α) (index : Int) : JSArr α :=
  if index ≤ 0 then array
  else splice array (index - 1) 2 [jsGet array index, jsGet array (index - 1)]

/-- Source function `ArrayActions.swapDown`: no-op for `index < 0` or
`array.length - 1 <= index`, otherwise
`array.splice(index, 2, array[index + 1], array[index])`. -/
def swapDown (array : JSArr α) (index : Int) : JSArr α :=
  if index < 0 then array
  else if (array.length : Int) - 1 ≤ index then array
  else splice array index 2 [jsGet array (index + 1), jsGet array index]

/-- The `Pipe` class from the source: holds one current value. -/
structure Pipe (T : Type u) where
  v : T

/-- Source method `Pipe.prototype.to`: replace the held value with `fc` applied to it
and return the pipe (the chaining step). -/
def Pipe.to (p : Pipe T) (fc : T → T) : Pipe T := { v := fc p.v }

/-- Source method `Pipe.prototype.log`: `console.log` the held value and return the
pipe; the diagnostic write has no effect on the held value. -/
def Pipe.log (p : Pipe T) : Pipe T := p

/-- Source method `Pipe.prototype.exit`: return the held value. -/
def Pipe.exit (p : Pipe T) : T := p.v

/-- Source predicate `TypeGuard.isNull`: `v === null`, with `Option.none`
modelling `null`. -/
def TypeGuard.isNull (v : Option σ) : Bool := v.isNone

/-- The bound spreadsheet handle consumed by `SpreadsheetLib` (§6): a
by-name sheet lookup that can return null, and a container identifier. -/
structure Spreadsheet (σ : Type) where
  getSheetByName : String → Option σ
  getId : String

/-- The `{ sheet }` wrapper returned by `openSheet`. -/
structure SheetRef (σ : Type) where
  sheet : σ

/-- The error message thrown by `openSheet`:
`` sheet "<name>" は Spreadsheet <id> に存在しません ``. -/
def openSheetErrMsg (ss : Spreadsheet σ) (sheetName : String) : String :=
  "sheet \"" ++ sheetName ++ "\" は Spreadsheet " ++ ss.getId ++
    " に存在しません"

/-- Source function `SpreadsheetLib(ss).openSheet(sheetName)`: look the
sheet up by name; throw (here: `Except.error`) the descriptive message
when `TypeGuard.isNull` holds of the lookup result — which is exactly the
`none` branch of the match — otherwise return `{ sheet }`. -/
def openSheet (ss : Spreadsheet σ) (sheetName : String) :
    Except String (SheetRef σ) :=
  match ss.getSheetByName sheetName with
  | none => .error (openSheetErrMsg ss sheetName)
  | some s => .ok { sheet := s }

/-- One step of the digest-encoding loop in `createMD5HashKey`:
`hash_key += byte < 0 ? (byte += 256).toString(16) : byte.toString(16)`. -/
def md5HexStep (hash_key : String) (byte : Int) : String :=
  hash_key ++ (if byte < 0 then jsIntToHex (byte + 256) else jsIntToHex byte)

/-- Source function `createMD5HashKey`, parameterised by the platform
digest primitive (`Utilities.computeDigest` with MD5 / UTF-8 fixed):
fold the encoding step over the digest bytes starting from `''`. -/
def createMD5HashKey (computeDigest : String → List Int) (text : String) :
    String :=
  (computeDigest text).foldl md5HexStep ""

/-- The loop body's per-byte encoding, concatenated recursively; the
fold in `createMD5HashKey` builds exactly this string (proved below). -/
def codeDigestHex : List Int → String
  | [] => ""
  | b :: rest =>
    (if b < 0 then jsIntToHex (b + 256) else jsIntToHex b) ++ codeDigestHex rest

/-- Spec-side rendering of one digest byte (§4.1): if negative add 256 to
obtain the unsigned value, then render as lowercase hexadecimal without
left-padding to two digits. -/
def specByteHex (byte : Int) : String :=
  natToHex (if byte < 0 then byte + 256 else byte).toNat

/-- Spec-side rendering of a whole digest (§4.1): concatenate the
renderings of all bytes in byte order, no spacing or delimiter. -/
def specDigestHex : List Int → String
  | [] => ""
  | b :: rest => specByteHex b ++ specDigestHex rest

/-- The number of digest bytes whose corrected (unsigned) value is below
16; exactly these render as a single hex character. -/
def countShortBytes (bytes : List Int) : Nat :=
  bytes.countP (fun b => (if b < 0 then b + 256 else b) < 16)

/-- The 16 signed digest bytes of MD5("") —
`d4 1d 8c d9 8f 00 b2 04 e9 80 09 98 ec f8 42 7e` in two's complement. -/
def md5EmptyDigest : List Int :=
  [-44, 29, -116, -39, -113, 0, -78, 4, -23, -128, 9, -104, -20, -8, 66, 126]

/-- The 16 signed digest bytes of MD5("a") —
`0c c1 75 b9 c0 f1 b6 a8 31 c3 99 e2 69 77 26 61` in two's complement. -/
def md5aDigest : List Int :=
  [12, -63, 117, -71, -64, -15, -74, -88, 49, -61, -103, -30, 105, 119, 38, 97]

/-! ## Helper lemmas -/

theorem strMk_data : ∀ s : String, String.mk s.data = s
  | ⟨_⟩ => rfl

theorem strMk_length (l : List Char) : (String.mk l).length = l.length := rfl

theorem emptyStr_append (s : String) : String.mk [] ++ s = s := by
  rw [← strMk_data (String.mk [] ++ s), String.data_append, List.nil_append,
    strMk_data]

theorem absIf_eq_natAbs (d : Int) :
    (if d < 0 then -d else d) = (d.natAbs : Int) := by
  split <;> omega

theorem jsRepeat_zeroChar (n : Nat) :
    (jsRepeat "0" n).data = List.replicate n '0' := by
  have h0 : ("0" : String).data = ['0'] := rfl
  simp [jsRepeat, h0]

theorem toZeroPadding_eq (v : JSVal) (d : Int) :
    toZeroPadding v d =
      jsSlice (jsRepeat "0" d.natAbs ++ v.render) (-(d.natAbs : Int)) := by
  simp only [toZeroPadding, absIf_eq_natAbs, Int.toNat_natCast]

theorem toWordPadding_eq (v : JSVal) (d : Int) (word : String) :
    toWordPadding v d word =
      jsSlice (jsRepeat word d.natAbs ++ v.render) (-(d.natAbs : Int)) := by
  simp only [toWordPadding, absIf_eq_natAbs, Int.toNat_natCast]

/-- Dropping the rendering's length from an `abs`-many-zeros prefix
agrees with pad-to-width followed by take-last (the two sides of the
`toZeroPadding` contract), at the level of character lists. -/
theorem pad_slice_list (w : Nat) (c : Char) (r : List Char) :
    (List.replicate w c ++ r).drop r.length =
      (List.replicate (w - r.length) c ++ r).drop
        ((List.replicate (w - r.length) c ++ r).length - w) := by
  rcases le_total r.length w with h | h
  · rw [List.drop_append_of_le_length (by simpa using h), List.drop_replicate]
    have hz : (List.replicate (w - r.length) c ++ r).length - w = 0 := by
      simp; omega
    rw [hz, List.drop_zero]
  · have h1 : w - r.length = 0 := by omega
    have h2 := @List.drop_append Char (List.replicate w c) r (r.length - w)
    simp only [List.length_replicate] at h2
    have h3 : w + (r.length - w) = r.length := by omega
    rw [h3] at h2
    rw [h1, h2]
    simp only [List.replicate_zero, List.nil_append]

/-! ## Claim theorems: padding helpers -/

/-- Claim C6 (amended): for every string-or-number value and every
**nonzero** digit count, `toZeroPadding` equals the spec's
pad-to-width-then-take-last rendering and its result has exactly
`abs digit` characters; `toZeroPadding(7, 3) = "007"` and
`toZeroPadding(12345, 3) = "345"`. (At `digit = 0` the length clause
fails — see the counterexample and claim C10.) -/
theorem toZeroPadding_spec_nonzero :
    (∀ (v : JSVal) (digit : Int), digit ≠ 0 →
      toZeroPadding v digit = specZeroPad v digit ∧
      (toZeroPadding v digit).length = digit.natAbs) ∧
    toZeroPadding (.num 7) 3 = "007" ∧
    toZeroPadding (.num 12345) 3 = "345" := by
  refine ⟨?_, by decide, by decide⟩
  intro v digit hd
  have hw1 : 1 ≤ digit.natAbs := by omega
  have hdata : (jsRepeat "0" digit.natAbs ++ v.render).data =
      List.replicate digit.natAbs '0' ++ v.render.data := by
    rw [String.data_append, jsRepeat_zeroChar]
  have hlen : (jsRepeat "0" digit.natAbs ++ v.render).length =
      digit.natAbs + v.render.data.length := by
    rw [← strMk_data (jsRepeat "0" digit.natAbs ++ v.render), hdata]
    simp [strMk_length]
  have key : toZeroPadding v digit =
      String.mk ((List.replicate digit.natAbs '0' ++ v.render.data).drop
        v.render.data.length) := by
    rw [toZeroPadding_eq]
    unfold jsSlice
    rw [if_pos (by omega : -(digit.natAbs : Int) < 0), hdata, hlen]
    congr 2
    omega
  constructor
  · rw [key]
    unfold specZeroPad lastChars padStartWith
    congr 1
    simpa using pad_slice_list digit.natAbs '0' v.render.data
  · rw [key, strMk_length, List.length_drop]
    simp

/-- Witness for C6 at `v = 7`, `digit = 3`. -/
theorem toZeroPadding_spec_nonzero_witness :
    (3 : Int) ≠ 0 ∧ (toZeroPadding (.num 7) 3 = specZeroPad (.num 7) 3 ∧
      (toZeroPadding (.num 7) 3).length = (3 : Int).natAbs) :=
  ⟨by decide, toZeroPadding_spec_nonzero.1 (.num 7) 3 (by decide)⟩

/-- Counterexample for C6 as stated: at `digit = 0` the result of
`toZeroPadding(7, 0)` is `"7"`, whose length 1 is not `abs 0 = 0`. -/
theorem toZeroPadding_zero_counterexample :
    ¬ (toZeroPadding (.num 7) 0).length = (0 : Int).natAbs := by decide

/-- Claim C7: both padding helpers treat a negative digit count exactly
like its absolute value. -/
theorem padding_neg_digit :
    ∀ (v : JSVal) (digit : Int) (word : String),
      toZeroPadding v (-digit) = toZeroPadding v digit ∧
      toWordPadding v (-digit) word = toWordPadding v digit word := by
  intro v digit word
  constructor
  · rw [toZeroPadding_eq, toZeroPadding_eq, Int.natAbs_neg]
  · rw [toWordPadding_eq, toWordPadding_eq, Int.natAbs_neg]

/-- Claim C10: at `digit = 0` both padding helpers return the entire
rendering of `v` (the `slice(-0)` step takes the whole string), so the
result's length is that of the rendering. -/
theorem padding_zero_digit :
    ∀ (v : JSVal) (word : String),
      toZeroPadding v 0 = v.render ∧ toWordPadding v 0 word = v.render ∧
      (toZeroPadding v 0).length = v.render.length := by
  intro v word
  have hz : ∀ s : String, jsSlice s (-((0 : Int).natAbs : Int)) = s := by
    intro s
    unfold jsSlice
    rw [if_neg (by omega)]
    simp [strMk_data]
  have hrep : ∀ w : String, jsRepeat w (0 : Int).natAbs = String.mk [] := by
    intro w
    simp [jsRepeat]
  refine ⟨?_, ?_, ?_⟩
  · rw [toZeroPadding_eq, hz, hrep, emptyStr_append]
  · rw [toWordPadding_eq, hz, hrep, emptyStr_append]
  · rw [toZeroPadding_eq, hz, hrep, emptyStr_append]

/-! ## Claim theorems: Pipe -/

/-- Claim C8: chaining `to(f1) ... to(fn)` from an initial value and then
calling `exit()` returns `fn(...(f1(v)))`; `to` replaces the held value
with the function applied to it, `log` leaves the held value unchanged,
and `Pipe(5).to(x => x + 1).to(x => x * 2).exit()` is `12`. -/
theorem pipe_chain_spec :
    (∀ (T : Type) (v : T) (fs : List (T → T)),
      (fs.foldl Pipe.to { v := v }).exit = fs.foldl (fun x f => f x) v) ∧
    (∀ (T : Type) (p : Pipe T), p.log = p) ∧
    (((Pipe.mk 5).to (fun x => x + 1)).to (fun x => x * 2)).exit = 12 := by
  refine ⟨?_, fun T p => rfl, rfl⟩
  intro T v fs
  induction fs generalizing v with
  | nil => rfl
  | cons f fs ih =>
    simp only [List.foldl_cons]
    exact ih (f v)

/-! ## Claim theorems: openSheet -/

/-- Claim C9: `openSheet` errors exactly when the by-name lookup is null
(`TypeGuard.isNull`), the error message contains both the requested sheet
name and the container's identifier, and on success it returns the
`{ sheet }` wrapper around the found sheet. -/
theorem openSheet_spec :
    ∀ (σ : Type) (ss : Spreadsheet σ) (sheetName : String),
      (TypeGuard.isNull (ss.getSheetByName sheetName) = true →
        openSheet ss sheetName = .error (openSheetErrMsg ss sheetName) ∧
        List.IsInfix sheetName.data (openSheetErrMsg ss sheetName).data ∧
        List.IsInfix ss.getId.data (openSheetErrMsg ss sheetName).data) ∧
      (∀ s : σ, ss.getSheetByName sheetName = some s →
        openSheet ss sheetName = .ok { sheet := s }) ∧
      (∀ msg : String, openSheet ss sheetName = .error msg →
        TypeGuard.isNull (ss.getSheetByName sheetName) = true) := by
  intro σ ss sheetName
  refine ⟨fun hnull => ⟨?_, ?_, ?_⟩, fun s hs => ?_, fun msg herr => ?_⟩
  · cases h : ss.getSheetByName sheetName with
    | none => simp [openSheet, h]
    | some s => simp [TypeGuard.isNull, h] at hnull
  · exact ⟨"sheet \"".data,
      ("\" は Spreadsheet " ++ ss.getId ++ " に存在しません").data,
      by simp [openSheetErrMsg, List.append_assoc]⟩
  · exact ⟨("sheet \"" ++ sheetName ++ "\" は Spreadsheet ").data,
      (" に存在しません" : String).data,
      by simp [openSheetErrMsg, List.append_assoc]⟩
  · simp [openSheet, hs]
  · cases h : ss.getSheetByName sheetName with
    | none => simp [TypeGuard.isNull, h]
    | some s => simp [openSheet, h] at herr

/-- Witness for C9: a handle with no sheets and id `"SS1"`, looked up for
`"Sheet1"`. -/
theorem openSheet_spec_witness :
    TypeGuard.isNull
      ((Spreadsheet.mk (fun _ => (none : Option Nat)) "SS1").getSheetByName
        "Sheet1") = true ∧
    (openSheet (Spreadsheet.mk (fun _ => (none : Option Nat)) "SS1")
        "Sheet1" =
      .error (openSheetErrMsg
        (Spreadsheet.mk (fun _ => (none : Option Nat)) "SS1") "Sheet1") ∧
    List.IsInfix ("Sheet1" : String).data
      (openSheetErrMsg
        (Spreadsheet.mk (fun _ => (none : Option Nat)) "SS1")
        "Sheet1").data ∧
    List.IsInfix
      ((Spreadsheet.mk (fun _ => (none : Option Nat)) "SS1").getId).data
      (openSheetErrMsg
        (Spreadsheet.mk (fun _ => (none : Option Nat)) "SS1")
        "Sheet1").data) :=
  ⟨rfl, (openSheet_spec Nat
    (Spreadsheet.mk (fun _ => (none : Option Nat)) "SS1") "Sheet1").1 rfl⟩

/-! ## Helper lemmas: array swaps -/

theorem spliceStart_le (arr : JSArr α) (st : Int) :
    spliceStart arr st ≤ arr.length := by
  unfold spliceStart
  split <;> omega

theorem jsGet_nonneg (arr : JSArr α) (j : Int) (h : 0 ≤ j) :
    jsGet arr j = (arr[j.toNat]?).getD none := by
  unfold jsGet
  rw [if_neg (by omega)]

theorem jsGet_neg (arr : JSArr α) (j : Int) (h : j < 0) :
    jsGet arr j = none := by
  unfold jsGet
  rw [if_pos h]

/-- The common shape of an in-range adjacent swap: an element pair spliced
in at position `n` over the two old elements. It has the old length, holds
`x` at `n` and `y` at `n + 1`, and agrees with the old array elsewhere. -/
theorem swapCore_spec (arr : JSArr α) (n : Nat) (x y : Option α)
    (h : n + 1 < arr.length) :
    (arr.take n ++ x :: y :: arr.drop (n + 2)).length = arr.length ∧
    (arr.take n ++ x :: y :: arr.drop (n + 2))[n]? = some x ∧
    (arr.take n ++ x :: y :: arr.drop (n + 2))[n + 1]? = some y ∧
    ∀ m : Nat, m ≠ n → m ≠ n + 1 →
      (arr.take n ++ x :: y :: arr.drop (n + 2))[m]? = arr[m]? := by
  have ht : (arr.take n).length = n := by
    simp
    omega
  refine ⟨by simp; omega, ?_, ?_, ?_⟩
  · rw [List.getElem?_append_right (by omega), ht, Nat.sub_self]
    rfl
  · rw [List.getElem?_append_right (by omega), ht]
    have h1 : n + 1 - n = 1 := by omega
    rw [h1, List.getElem?_cons_succ]
    simp
  · intro m hm1 hm2
    rcases Nat.lt_or_ge m n with hlt | hge
    · rw [List.getElem?_append_left (by omega)]
      exact List.getElem?_take_of_lt hlt
    · rw [List.getElem?_append_right (by omega), ht]
      have h2 : m - n = m - n - 2 + 1 + 1 := by omega
      rw [h2, List.getElem?_cons_succ, List.getElem?_cons_succ,
        List.getElem?_drop]
      congr 1
      omega

theorem swapUp_splice (arr : JSArr α) (i : Int) (h1 : 0 < i)
    (h2 : (i : Int) < arr.length) :
    swapUp arr i = arr.take (i.toNat - 1) ++
      jsGet arr i :: jsGet arr (i - 1) :: arr.drop (i.toNat - 1 + 2) := by
  unfold swapUp
  rw [if_neg (by omega)]
  unfold splice
  have hs : spliceStart arr (i - 1) = i.toNat - 1 := by
    unfold spliceStart
    rw [if_neg (by omega)]
    omega
  rw [hs]
  have hd : i.toNat - 1 +
      min (Int.toNat 2) (arr.length - (i.toNat - 1)) = i.toNat - 1 + 2 := by
    omega
  rw [hd]
  rfl

theorem swapDown_splice (arr : JSArr α) (i : Int) (h1 : 0 ≤ i)
    (h2 : i < (arr.length : Int) - 1) :
    swapDown arr i = arr.take i.toNat ++
      jsGet arr (i + 1) :: jsGet arr i :: arr.drop (i.toNat + 2) := by
  unfold swapDown
  rw [if_neg (by omega), if_neg (by omega)]
  unfold splice
  have hs : spliceStart arr i = i.toNat := by
    unfold spliceStart
    rw [if_neg (by omega)]
    omega
  rw [hs]
  have hd : i.toNat +
      min (Int.toNat 2) (arr.length - i.toNat) = i.toNat + 2 := by
    omega
  rw [hd]
  rfl

/-! ## Claim theorems: array swaps -/

/-- Claim C4: `swapDown(seq, i)` is a no-op exactly when `i < 0` or
`i >= length - 1`; otherwise it exchanges the elements at `i` and
`i + 1`, leaving all other elements and the length unchanged;
`swapDown([a,b,c], 1) = [a,c,b]` and `swapDown([a,b,c], 2) = [a,b,c]`. -/
theorem swapDown_spec :
    (∀ (α : Type) (arr : JSArr α) (i : Int),
      i < 0 ∨ (arr.length : Int) - 1 ≤ i → swapDown arr i = arr) ∧
    (∀ (α : Type) (arr : JSArr α) (i : Int),
      0 ≤ i → i < (arr.length : Int) - 1 →
      (swapDown arr i).length = arr.length ∧
      jsGet (swapDown arr i) i = jsGet arr (i + 1) ∧
      jsGet (swapDown arr i) (i + 1) = jsGet arr i ∧
      ∀ j : Int, j ≠ i → j ≠ i + 1 →
        jsGet (swapDown arr i) j = jsGet arr j) ∧
    (∀ (α : Type) (a b c : Option α),
      swapDown [a, b, c] 1 = [a, c, b] ∧ swapDown [a, b, c] 2 = [a, b, c]) := by
  refine ⟨?_, ?_, ?_⟩
  · intro α arr i h
    unfold swapDown
    split_ifs with h1 h2
    · rfl
    · rfl
    · omega
  · intro α arr i h1 h2
    have hcore := swapCore_spec arr i.toNat (jsGet arr (i + 1)) (jsGet arr i)
      (by omega)
    rw [swapDown_splice arr i h1 h2]
    refine ⟨hcore.1, ?_, ?_, ?_⟩
    · rw [jsGet_nonneg _ i h1, hcore.2.1, jsGet_nonneg _ (i + 1) (by omega)]
      rfl
    · rw [jsGet_nonneg _ (i + 1) (by omega)]
      have hi1 : (i + 1).toNat = i.toNat + 1 := by omega
      rw [hi1, hcore.2.2.1, jsGet_nonneg _ i h1]
      rfl
    · intro j hj1 hj2
      rcases lt_or_le j 0 with hj | hj
      · rw [jsGet_neg _ j hj, jsGet_neg _ j hj]
      · rw [jsGet_nonneg _ j hj, jsGet_nonneg _ j hj,
          hcore.2.2.2 j.toNat (by omega) (by omega)]
  · intro α a b c
    constructor <;> rfl

/-- Witness for C4 at `arr = [1, 2, 3]`, `i = 1`. -/
theorem swapDown_spec_witness :
    (0 : Int) ≤ 1 ∧ (1 : Int) < (([some 1, some 2, some 3] :
        JSArr Nat).length : Int) - 1 ∧
    ((swapDown ([some 1, some 2, some 3] : JSArr Nat) 1).length =
        ([some 1, some 2, some 3] : JSArr Nat).length ∧
      jsGet (swapDown ([some 1, some 2, some 3] : JSArr Nat) 1) 1 =
        jsGet ([some 1, some 2, some 3] : JSArr Nat) 2 ∧
      jsGet (swapDown ([some 1, some 2, some 3] : JSArr Nat) 1) 2 =
        jsGet ([some 1, some 2, some 3] : JSArr Nat) 1 ∧
      ∀ j : Int, j ≠ 1 → j ≠ 2 →
        jsGet (swapDown ([some 1, some 2, some 3] : JSArr Nat) 1) j =
          jsGet ([some 1, some 2, some 3] : JSArr Nat) j) := by
  refine ⟨by decide, by decide, ?_⟩
  have h := swapDown_spec.2.1 Nat [some 1, some 2, some 3] 1
    (by decide) (by decide)
  simpa using h

/-- Claim C3 (amended): `swapUp(seq, i)` is a no-op for `i <= 0`, and for
`0 < i < length` it exchanges the elements at `i - 1` and `i`, leaving
all other elements and the length unchanged; `swapUp([a,b,c], 1) =
[b,a,c]` and `swapUp([a,b,c], 0) = [a,b,c]`. (For `i >= length` the
splice inserts `undefined` and grows the array — see the
counterexample.) -/
theorem swapUp_spec_amended :
    (∀ (α : Type) (arr : JSArr α) (i : Int), i ≤ 0 → swapUp arr i = arr) ∧
    (∀ (α : Type) (arr : JSArr α) (i : Int),
      0 < i → i < (arr.length : Int) →
      (swapUp arr i).length = arr.length ∧
      jsGet (swapUp arr i) (i - 1) = jsGet arr i ∧
      jsGet (swapUp arr i) i = jsGet arr (i - 1) ∧
      ∀ j : Int, j ≠ i - 1 → j ≠ i →
        jsGet (swapUp arr i) j = jsGet arr j) ∧
    (∀ (α : Type) (a b c : Option α),
      swapUp [a, b, c] 1 = [b, a, c] ∧ swapUp [a, b, c] 0 = [a, b, c]) := by
  refine ⟨?_, ?_, ?_⟩
  · intro α arr i h
    unfold swapUp
    rw [if_pos h]
  · intro α arr i h1 h2
    have hcore := swapCore_spec arr (i.toNat - 1) (jsGet arr i)
      (jsGet arr (i - 1)) (by omega)
    rw [swapUp_splice arr i h1 h2]
    refine ⟨hcore.1, ?_, ?_, ?_⟩
    · rw [jsGet_nonneg _ (i - 1) (by omega)]
      have hi1 : (i - 1).toNat = i.toNat - 1 := by omega
      rw [hi1, hcore.2.1, jsGet_nonneg _ i (by omega)]
      rfl
    · rw [jsGet_nonneg _ i (by omega)]
      have hi2 : i.toNat = i.toNat - 1 + 1 := by omega
      have hkey := hcore.2.2.1
      rw [← hi2] at hkey
      rw [hkey]
      rfl
    · intro j hj1 hj2
      rcases lt_or_le j 0 with hj | hj
      · rw [jsGet_neg _ j hj, jsGet_neg _ j hj]
      · rw [jsGet_nonneg _ j hj, jsGet_nonneg _ j hj,
          hcore.2.2.2 j.toNat (by omega) (by omega)]
  · intro α a b c
    constructor <;> rfl

/-- Witness for C3 (amended) at `arr = [1, 2, 3]`, `i = 1`. -/
theorem swapUp_spec_amended_witness :
    (0 : Int) < 1 ∧ (1 : Int) < (([some 1, some 2, some 3] :
        JSArr Nat).length : Int) ∧
    ((swapUp ([some 1, some 2, some 3] : JSArr Nat) 1).length =
        ([some 1, some 2, some 3] : JSArr Nat).length ∧
      jsGet (swapUp ([some 1, some 2, some 3] : JSArr Nat) 1) 0 =
        jsGet ([some 1, some 2, some 3] : JSArr Nat) 1 ∧
      jsGet (swapUp ([some 1, some 2, some 3] : JSArr Nat) 1) 1 =
        jsGet ([some 1, some 2, some 3] : JSArr Nat) 0 ∧
      ∀ j : Int, j ≠ 0 → j ≠ 1 →
        jsGet (swapUp ([some 1, some 2, some 3] : JSArr Nat) 1) j =
          jsGet ([some 1, some 2, some 3] : JSArr Nat) j) := by
  refine ⟨by decide, by decide, ?_⟩
  have h := swapUp_spec_amended.2.1 Nat [some 1, some 2, some 3] 1
    (by decide) (by decide)
  simpa using h

/-- Counterexample for C3 as stated: at `i = 3` on a 3-element array the
claim's swap branch applies (`i > 0`), yet `splice` reads the
out-of-range `array[3]` as `undefined` and inserts it, growing the array
to `[a, b, undefined, c]` of length 4. -/
theorem swapUp_out_of_range_counterexample :
    swapUp ([some 10, some 20, some 30] : JSArr Nat) 3 =
      [some 10, some 20, none, some 30] ∧
    ¬ (swapUp ([some 10, some 20, some 30] : JSArr Nat) 3).length =
      ([some 10, some 20, some 30] : JSArr Nat).length := by
  constructor <;> decide

/-- Claim C5 (amended): on empty and single-element arrays `swapDown` is
a no-op for every integer index, and `swapUp` is a no-op for `i <= 0`;
but for `i >= 1` `swapUp` is not a no-op there: it returns a strictly
longer array (undefined entries are spliced in). -/
theorem swap_small_arrays_amended :
    (∀ (α : Type) (arr : JSArr α) (i : Int), arr.length ≤ 1 →
      swapDown arr i = arr) ∧
    (∀ (α : Type) (arr : JSArr α) (i : Int), arr.length ≤ 1 → i ≤ 0 →
      swapUp arr i = arr) ∧
    (∀ (α : Type) (arr : JSArr α) (i : Int), arr.length ≤ 1 → 1 ≤ i →
      arr.length < (swapUp arr i).length) := by
  refine ⟨?_, ?_, ?_⟩
  · intro α arr i hlen
    unfold swapDown
    split_ifs with h1 h2
    · rfl
    · rfl
    · omega
  · intro α arr i hlen hi
    unfold swapUp
    rw [if_pos hi]
  · intro α arr i hlen hi
    unfold swapUp
    rw [if_neg (by omega)]
    unfold splice
    have hs := spliceStart_le arr (i - 1)
    simp only [List.length_append, List.length_take, List.length_cons,
      List.length_drop]
    omega

/-- Witness for C5 (amended) at the empty array and `i = 1`, and at a
singleton and `i = 0`. -/
theorem swap_small_arrays_amended_witness :
    (([] : JSArr Nat).length ≤ 1 ∧ swapDown ([] : JSArr Nat) 1 = []) ∧
    (([some 5] : JSArr Nat).length ≤ 1 ∧ (0 : Int) ≤ 0 ∧
      swapUp ([some 5] : JSArr Nat) 0 = [some 5]) ∧
    (([] : JSArr Nat).length ≤ 1 ∧ (1 : Int) ≤ 1 ∧
      ([] : JSArr Nat).length < (swapUp ([] : JSArr Nat) 1).length) :=
  ⟨⟨by decide, swap_small_arrays_amended.1 Nat [] 1 (by decide)⟩,
    ⟨by decide, by decide,
      swap_small_arrays_amended.2.1 Nat [some 5] 0 (by decide) (by decide)⟩,
    ⟨by decide, by decide,
      swap_small_arrays_amended.2.2 Nat [] 1 (by decide) (by decide)⟩⟩

/-- Counterexample for C5 as stated: on the empty array with `i = 1`,
`swapUp` is not a no-op — it returns `[undefined, undefined]`. -/
theorem swapUp_empty_counterexample :
    swapUp ([] : JSArr Nat) 1 = [none, none] ∧
    ¬ swapUp ([] : JSArr Nat) 1 = [] := by
  constructor <;> decide

/-! ## Helper lemmas: digest encoding -/

theorem empty_eq_strMk : ("" : String) = String.mk [] := rfl

theorem append_emptyStr (s : String) : s ++ "" = s := by
  rw [← strMk_data (s ++ ""), String.data_append, empty_eq_strMk]
  rw [List.append_nil, strMk_data]

theorem foldl_md5HexStep (l : List Int) (s : String) :
    l.foldl md5HexStep s = s ++ codeDigestHex l := by
  induction l generalizing s with
  | nil => rw [List.foldl_nil, codeDigestHex, append_emptyStr]
  | cons b rest ih =>
    rw [List.foldl_cons, codeDigestHex, ih]
    rw [← String.append_assoc]
    rfl

theorem codeByteHex_eq_spec (b : Int) (h1 : -128 ≤ b) (h2 : b ≤ 127) :
    (if b < 0 then jsIntToHex (b + 256) else jsIntToHex b) =
      specByteHex b := by
  unfold specByteHex jsIntToHex
  rcases lt_or_le b 0 with hb | hb
  · rw [if_pos hb, if_pos hb, if_neg (by omega)]
  · rw [if_neg (by omega), if_neg (by omega), if_neg (by omega)]

theorem codeDigestHex_eq_spec (l : List Int)
    (hb : ∀ b ∈ l, -128 ≤ b ∧ b ≤ 127) :
    codeDigestHex l = specDigestHex l := by
  induction l with
  | nil => rfl
  | cons b rest ih =>
    have hbb := hb b (List.mem_cons_self b rest)
    rw [codeDigestHex, specDigestHex, codeByteHex_eq_spec b hbb.1 hbb.2,
      ih (fun x hx => hb x (List.mem_cons_of_mem b hx))]

set_option maxRecDepth 8192 in
theorem natToHex_length_lt256 :
    ∀ n : Nat, n < 256 → (natToHex n).length = if n < 16 then 1 else 2 := by
  decide

theorem specByteHex_length (b : Int) (h1 : -128 ≤ b) (h2 : b ≤ 127) :
    (specByteHex b).length =
      if (if b < 0 then b + 256 else b) < 16 then 1 else 2 := by
  unfold specByteHex
  rcases lt_or_le b 0 with hb | hb
  · rw [if_pos hb]
    rw [natToHex_length_lt256 _ (by omega)]
    by_cases hc : b + 256 < (16 : Int)
    · rw [if_pos (by omega), if_pos hc]
    · rw [if_neg (by omega), if_neg hc]
  · rw [if_neg (by omega)]
    rw [natToHex_length_lt256 _ (by omega)]
    by_cases hc : b < (16 : Int)
    · rw [if_pos (by omega), if_pos hc]
    · rw [if_neg (by omega), if_neg hc]

theorem specDigestHex_length (l : List Int)
    (hb : ∀ b ∈ l, -128 ≤ b ∧ b ≤ 127) :
    (specDigestHex l).length = 2 * l.length - countShortBytes l := by
  induction l with
  | nil => rfl
  | cons b rest ih =>
    have hbb := hb b (List.mem_cons_self b rest)
    have hrest := ih (fun x hx => hb x (List.mem_cons_of_mem b hx))
    have hle := List.countP_le_length
      (p := fun b : Int => decide ((if b < 0 then b + 256 else b) < 16))
      (l := rest)
    rw [specDigestHex, String.length_append,
      specByteHex_length b hbb.1 hbb.2, hrest]
    unfold countShortBytes
    rw [List.countP_cons]
    simp only [decide_eq_true_eq, List.length_cons]
    by_cases hc : (if b < 0 then b + 256 else b) < 16
    · rw [if_pos hc, if_pos hc]
      omega
    · rw [if_neg hc, if_neg hc]
      omega

/-! ## Claim theorems: digest encoder -/

/-- Claim C1: for every digest primitive obeying the documented interface
(16 signed bytes in `[-128, 127]`) and every input text,
`createMD5HashKey` returns the concatenation in byte order of the hex
renderings of the digest bytes, each corrected by adding 256 when
negative and rendered as lowercase hex without left-padding. -/
theorem createMD5HashKey_spec :
    ∀ (computeDigest : String → List Int) (text : String),
      (computeDigest text).length = 16 →
      (∀ b ∈ computeDigest text, -128 ≤ b ∧ b ≤ 127) →
      createMD5HashKey computeDigest text =
        specDigestHex (computeDigest text) := by
  intro f text _ hb
  unfold createMD5HashKey
  rw [foldl_md5HexStep, empty_eq_strMk, emptyStr_append,
    codeDigestHex_eq_spec _ hb]

/-- Witness for C1: the digest primitive returning the MD5("") bytes. -/
theorem createMD5HashKey_spec_witness :
    ((fun _ : String => md5EmptyDigest) "").length = 16 ∧
    (∀ b ∈ (fun _ : String => md5EmptyDigest) "", -128 ≤ b ∧ b ≤ 127) ∧
    createMD5HashKey (fun _ : String => md5EmptyDigest) "" =
      specDigestHex ((fun _ : String => md5EmptyDigest) "") :=
  ⟨by decide, by decide,
    createMD5HashKey_spec (fun _ : String => md5EmptyDigest) ""
      (by decide) (by decide)⟩

/-- Claim C2 (amended): the hash-key string has
`32 - (number of digest bytes whose corrected value is below 16)` hex
characters, so its length is even exactly when that count is even — not
always. -/
theorem hashKey_length_spec :
    ∀ (computeDigest : String → List Int) (text : String),
      (computeDigest text).length = 16 →
      (∀ b ∈ computeDigest text, -128 ≤ b ∧ b ≤ 127) →
      (createMD5HashKey computeDigest text).length =
        32 - countShortBytes (computeDigest text) ∧
      (Even (createMD5HashKey computeDigest text).length ↔
        Even (countShortBytes (computeDigest text))) := by
  intro f text h16 hb
  have hcode : createMD5HashKey f text = specDigestHex (f text) := by
    unfold createMD5HashKey
    rw [foldl_md5HexStep, empty_eq_strMk, emptyStr_append,
      codeDigestHex_eq_spec _ hb]
  have hlen : (createMD5HashKey f text).length =
      32 - countShortBytes (f text) := by
    rw [hcode, specDigestHex_length _ hb, h16]
  have hle : countShortBytes (f text) ≤ 32 := by
    have := List.countP_le_length
      (p := fun b : Int => decide ((if b < 0 then b + 256 else b) < 16))
      (l := f text)
    unfold countShortBytes
    omega
  refine ⟨hlen, ?_⟩
  rw [hlen, Nat.even_sub hle]
  exact ⟨fun h => h.mp (by decide), fun h => ⟨fun _ => h, fun _ => by decide⟩⟩

/-- Witness for C2 (amended): the MD5("") digest, whose sole
below-16 bytes are `00`, `04` and `09`, giving length `32 - 3 = 29`. -/
theorem hashKey_length_spec_witness :
    ((fun _ : String => md5EmptyDigest) "").length = 16 ∧
    (∀ b ∈ (fun _ : String => md5EmptyDigest) "", -128 ≤ b ∧ b ≤ 127) ∧
    ((createMD5HashKey (fun _ : String => md5EmptyDigest) "").length =
        32 - countShortBytes ((fun _ : String => md5EmptyDigest) "") ∧
      (Even (createMD5HashKey (fun _ : String => md5EmptyDigest) "").length ↔
        Even (countShortBytes ((fun _ : String => md5EmptyDigest) "")))) :=
  ⟨by decide, by decide,
    hashKey_length_spec (fun _ : String => md5EmptyDigest) ""
      (by decide) (by decide)⟩

/-- Counterexample for C2 as stated: the digest of `"a"` has exactly one
byte below 16 (`0c`), so the hash key has 31 hex characters — an odd
number. -/
theorem hashKey_odd_length_counterexample :
    (createMD5HashKey (fun _ : String => md5aDigest) "a").length = 31 ∧
    ¬ Even (createMD5HashKey (fun _ : String => md5aDigest) "a").length := by
  have h : (createMD5HashKey (fun _ : String => md5aDigest) "a").length = 31 := by
    decide
  exact ⟨h, by rw [h]; decide⟩
